import Mathlib

/-!
Shallow embedding of the Behavior Analytics Aggregation Engine of
`src/api/admin.js` (studyflow): the pure computations inside
`getBehaviorMetrics` and the helper functions `calculateDailyTrend`,
`calculateUserEngagement`, `calculateSessionFrequency` and
`calculateSessionDepth`.

Modelling choices:
* Timestamps are integers (milliseconds since the epoch, UTC).  The day key
  `new Date(t).toISOString().slice(0,10)` is modelled as the floored day
  number `t.fdiv 86400000`; sorting ISO date strings ascending is the same
  as sorting day numbers ascending.  `new Date(t).getHours()` is modelled
  at UTC offset 0 as `(t.fdiv 3600000) % 24`.
* A possibly-missing or non-numeric field is an `Option`.  The JS idiom
  `Number(x) || 0` is `Option.getD · 0`.
* JS objects used as fixed-key counters, and `Map`s, are association lists
  (insertion order preserved; `obj[k]++` only ever touches keys that were
  initialised, which `bumpKey` mirrors; `Map.set` on a fresh key appends,
  which `bumpDay` mirrors).
* `toFixed(2)` is modelled as rounding to two decimal places over `Rat`.
* The `try/catch` of `getBehaviorMetrics` is modelled by running the
  assembler on an `Except`: an `ok` input is assembled, an `error` yields
  the literal fallback object of the `catch` block.
-/

namespace StudyFlow

/-- One row of `learning_sessions` as selected by `getBehaviorMetrics`:
`user_id`, `duration` (seconds) and `start_time`, each possibly missing. -/
structure SessionRecord where
  userId : Option Nat
  duration : Option Int
  startTime : Option Int
deriving DecidableEq

/-- One row of a feature table (`homework`, `exams`, `notes`, `flashcards`,
`pomodoro_sessions`): `id`, `user_id`, `created_at`. -/
structure FeatureRecord where
  fid : Nat
  userId : Option Nat
  createdAt : Option Int
deriving DecidableEq

def msPerDay : Int := 86400000

def msPerHour : Int := 3600000

/-- Day number of a timestamp: models `new Date(t).toISOString().slice(0,10)`
(the UTC calendar date) as an integer day count. -/
def dayOf (t : Int) : Int := Int.fdiv t msPerDay

/-- Hour of day of a timestamp: models `new Date(t).getHours()` (at UTC
offset 0); always in `[0, 24)`. -/
def hourOf (t : Int) : Int := (Int.fdiv t msPerHour) % 24

/-- `Number(session.duration) || 0`: a missing or non-numeric duration is 0. -/
def effDur (s : SessionRecord) : Int := s.duration.getD 0

/-! ### Association-list counters -/

/-- Keys of a counter object, in insertion order. -/
def keysOf {κ : Type} (m : List (κ × Nat)) : List κ := m.map Prod.fst

/-- Value at a key of a counter object (0 when absent, as `get(k) || 0`). -/
def getVal {κ : Type} [DecidableEq κ] (k : κ) : List (κ × Nat) → Nat
  | [] => 0
  | (k', v) :: rest => if k' = k then v else getVal k rest

/-- Sum of all counter values. -/
def sumVals {κ : Type} (m : List (κ × Nat)) : Nat := (m.map Prod.snd).sum

/-- `obj[k]++` on a fixed-key counter: increments the first entry for `k`,
no entry is created when `k` is absent (the source only increments keys it
initialised). -/
def bumpKey {κ : Type} [DecidableEq κ] (k : κ) : List (κ × Nat) → List (κ × Nat)
  | [] => []
  | (k', v) :: rest => if k' = k then (k', v + 1) :: rest else (k', v) :: bumpKey k rest

/-- `map.set(k, (map.get(k) || 0) + 1)`: increments in place, appends a new
entry when the key is fresh (JS `Map` insertion order). -/
def bumpDay (k : Int) : List (Int × Nat) → List (Int × Nat)
  | [] => [(k, 1)]
  | (k', v) :: rest => if k' = k then (k', v + 1) :: rest else (k', v) :: bumpDay k rest

/-- Generic counting loop: for each element, classify it (optionally) into a
bucket key and increment that bucket.  `none` means the element is skipped. -/
def foldBump {α κ : Type} [DecidableEq κ] (f : α → Option κ)
    (init : List (κ × Nat)) (xs : List α) : List (κ × Nat) :=
  xs.foldl (fun acc x => match f x with | some k => bumpKey k acc | none => acc) init

/-! ### Active-user counter (`distinctUsers`, admin.js 391-400) -/

/-- The filter `new Date(r.start_time) >= new Date(sinceIso)`; a missing
`start_time` gives `NaN` and the comparison is false. -/
def startGE (s : SessionRecord) (since : Int) : Bool :=
  match s.startTime with
  | some t => since ≤ t
  | none => false

/-- `distinctUsers(rows, sinceIso)`: the size of the `Set` of `user_id`s of
the rows passing the cutoff (a missing `user_id` is itself one Set element,
as in JS where `undefined` can sit in a `Set`). -/
def distinctUsers (rows : List SessionRecord) (since : Int) : Nat :=
  (((rows.filter (fun r => startGE r since)).map (fun r => r.userId)).dedup).length

/-! ### Daily trend bucketer (`calculateDailyTrend`, admin.js 552-560) -/

/-- The `byDay` map of `calculateDailyTrend`: rows without `created_at` are
skipped (`if (!item.created_at) continue`), others bump their day bucket. -/
def byDayCounts (data : List FeatureRecord) : List (Int × Nat) :=
  data.foldl
    (fun acc r =>
      match r.createdAt with
      | some t => bumpDay (dayOf t) acc
      | none => acc)
    []

/-- `calculateDailyTrend(data, labels)`: `labels.map(k => byDay.get(k) || 0)`. -/
def calculateDailyTrend (data : List FeatureRecord) (labels : List Int) : List Nat :=
  labels.map (fun k => getVal k (byDayCounts data))

/-! ### Grouping sessions by user -/

/-- One step of building `userSessionMap` / `userSessions`: push `s` onto the
entry of `uid`, appending a fresh entry when `uid` is new. -/
def addSession (uid : Nat) (s : SessionRecord) :
    List (Nat × List SessionRecord) → List (Nat × List SessionRecord)
  | [] => [(uid, [s])]
  | (u, ss) :: rest =>
      if u = uid then (u, ss ++ [s]) :: rest else (u, ss) :: addSession uid s rest

/-- The per-user grouping used by both `calculateUserEngagement` and
`calculateSessionDepth`: sessions without `user_id` are skipped. -/
def groupByUser (sessions : List SessionRecord) : List (Nat × List SessionRecord) :=
  sessions.foldl
    (fun acc s =>
      match s.userId with
      | some uid => addSession uid s acc
      | none => acc)
    []

/-! ### Engagement classifier (`calculateUserEngagement`, admin.js 563-589) -/

/-- The threshold chain of `calculateUserEngagement`. -/
def engagementTier (sessionCount : Nat) : String :=
  if sessionCount ≥ 12 then "high"
  else if sessionCount ≥ 4 then "medium"
  else if sessionCount ≥ 1 then "low"
  else "inactive"

def engagementInit : List (String × Nat) :=
  [("high", 0), ("medium", 0), ("low", 0), ("inactive", 0)]

/-- `calculateUserEngagement(sessions, since30)` (the `since30` argument is
unused in the source body). -/
def calculateUserEngagement (sessions : List SessionRecord) : List (String × Nat) :=
  foldBump (fun g => some (engagementTier g.2.length)) engagementInit (groupByUser sessions)

/-! ### Session frequency (`calculateSessionFrequency`, admin.js 592-616) -/

def freqBucket (count : Nat) : String :=
  if count ≤ 2 then "1-2次"
  else if count ≤ 5 then "3-5次"
  else if count ≤ 10 then "6-10次"
  else if count ≤ 20 then "11-20次"
  else "20+次"

def frequencyInit : List (String × Nat) :=
  [("1-2次", 0), ("3-5次", 0), ("6-10次", 0), ("11-20次", 0), ("20+次", 0)]

/-- One step of `userSessionCount`: `map.set(uid, (map.get(uid) || 0) + 1)`. -/
def bumpUser (uid : Nat) : List (Nat × Nat) → List (Nat × Nat)
  | [] => [(uid, 1)]
  | (u, c) :: rest => if u = uid then (u, c + 1) :: rest else (u, c) :: bumpUser uid rest

/-- The `userSessionCount` map: per-user session counts, skipping rows with
no `user_id`. -/
def userSessionCount (sessions : List SessionRecord) : List (Nat × Nat) :=
  sessions.foldl
    (fun acc s =>
      match s.userId with
      | some uid => bumpUser uid acc
      | none => acc)
    []

/-- `calculateSessionFrequency(sessions)`. -/
def calculateSessionFrequency (sessions : List SessionRecord) : List (String × Nat) :=
  foldBump (fun c => some (freqBucket c.2)) frequencyInit (userSessionCount sessions)

/-! ### Session depth (`calculateSessionDepth`, admin.js 619-744) -/

def durationLabels : List String :=
  ["0-5分钟", "5-15分钟", "15-30分钟", "30-60分钟", "60+分钟"]

def durationInit : List (String × Nat) :=
  [("0-5分钟", 0), ("5-15分钟", 0), ("15-30分钟", 0), ("30-60分钟", 0), ("60+分钟", 0)]

/-- `minutes = Math.floor(duration / 60)` then the `<=` chain of admin.js
654-658. -/
def durBucket (duration : Int) : String :=
  let minutes := Int.fdiv duration 60
  if minutes ≤ 5 then "0-5分钟"
  else if minutes ≤ 15 then "5-15分钟"
  else if minutes ≤ 30 then "15-30分钟"
  else if minutes ≤ 60 then "30-60分钟"
  else "60+分钟"

def todLabels : List String :=
  ["凌晨 (0-6点)", "上午 (6-12点)", "下午 (12-18点)", "晚上 (18-24点)"]

def todInit : List (String × Nat) :=
  [("凌晨 (0-6点)", 0), ("上午 (6-12点)", 0), ("下午 (12-18点)", 0), ("晚上 (18-24点)", 0)]

/-- The hour chain of admin.js 663-666. -/
def todBucket (t : Int) : String :=
  let hour := hourOf t
  if 0 ≤ hour ∧ hour < 6 then "凌晨 (0-6点)"
  else if 6 ≤ hour ∧ hour < 12 then "上午 (6-12点)"
  else if 12 ≤ hour ∧ hour < 18 then "下午 (12-18点)"
  else "晚上 (18-24点)"

/-- Duration-distribution loop (admin.js 650-658): every session is bucketed
by its effective duration. -/
def durationDistOf (sessions : List SessionRecord) : List (String × Nat) :=
  foldBump (fun s => some (durBucket (effDur s))) durationInit sessions

/-- Time-of-day loop (admin.js 661-667): only sessions with a `start_time`
are bucketed. -/
def todDistOf (sessions : List SessionRecord) : List (String × Nat) :=
  foldBump (fun s => s.startTime.map todBucket) todInit sessions

/-- One step of building `userDays` (admin.js 684-690): add the session's
day to the user's day `Set` (no duplicate entries). -/
def addUserDay (uid : Nat) (d : Int) : List (Nat × List Int) → List (Nat × List Int)
  | [] => [(uid, [d])]
  | (u, ds) :: rest =>
      if u = uid then (u, if d ∈ ds then ds else ds ++ [d]) :: rest
      else (u, ds) :: addUserDay uid d rest

/-- The `userDays` map: per user, the distinct days bearing a session; rows
missing `user_id` or `start_time` contribute nothing. -/
def userDaysOf (sessions : List SessionRecord) : List (Nat × List Int) :=
  sessions.foldl
    (fun acc s =>
      match s.userId, s.startTime with
      | some uid, some t => addUserDay uid (dayOf t) acc
      | _, _ => acc)
    []

/-- The `uniqueDays` set (admin.js 695-700): distinct days over all sessions
that have a `start_time`. -/
def uniqueDaysOf (sessions : List SessionRecord) : List Int :=
  ((sessions.filterMap (fun s => s.startTime)).map dayOf).dedup

/-- `x.toFixed(2)` on the exact rational value: round to 2 decimal places. -/
def toFixed2 (x : Rat) : Rat := ((round (x * 100) : Int) : Rat) / 100

/-- `avgSessionsPerDay` (admin.js 701): total sessions over distinct active
days, `toFixed(2)`; 0 when there is no active day. -/
def avgSessionsPerDayOf (sessions : List SessionRecord) : Rat :=
  let total : Nat := sessions.length
  let days : Nat := (uniqueDaysOf sessions).length
  if days > 0 then toFixed2 ((total : Rat) / (days : Rat)) else 0

/-- The streak loop of admin.js 710-721, one user: `prev` is `dates[i-1]`,
`cur` is `currentConsecutive`, `best` is `maxUserConsecutive`. -/
def streakLoop : Int → Nat → Nat → List Int → Nat
  | _, _, best, [] => best
  | prev, cur, best, d :: rest =>
      let diffDays := d - prev
      if diffDays = 1 then streakLoop d (cur + 1) (max best (cur + 1)) rest
      else if diffDays > 1 then streakLoop d 1 best rest
      else streakLoop d cur best rest

/-- `maxUserConsecutive` for one user's sorted distinct day list (both
counters start at 1, admin.js 707-708). -/
def userStreak : List Int → Nat
  | [] => 1
  | d :: rest => streakLoop d 1 1 rest

/-- `Array.from(datesSet).sort()`: ascending sort of the day list. -/
def sortedDays (l : List Int) : List Int := List.insertionSort (· ≤ ·) l

/-- `maxConsecutiveDays` (admin.js 703-724): maximum user streak, 0 when no
user has a dated session. -/
def maxConsecutiveDaysOf (sessions : List SessionRecord) : Nat :=
  (userDaysOf sessions).foldl (fun m g => max m (userStreak (sortedDays g.2))) 0

def intensityLabels : List String := ["短时高频", "长时低频", "均衡使用", "浅度使用"]

def intensityInit : List (String × Nat) :=
  [("短时高频", 0), ("长时低频", 0), ("均衡使用", 0), ("浅度使用", 0)]

/-- The intensity chain of admin.js 732-740. -/
def classifyIntensity (avgDuration : Rat) (sessionCount : Nat) : String :=
  if avgDuration < 300 ∧ sessionCount ≥ 10 then "短时高频"
  else if avgDuration ≥ 600 ∧ sessionCount < 5 then "长时低频"
  else if avgDuration ≥ 300 ∧ sessionCount ≥ 5 then "均衡使用"
  else "浅度使用"

/-- Per-user intensity bucket from the user's session list (admin.js
727-741): `avgDuration = totalDuration / sessionCount` guarded by
`sessionCount > 0`. -/
def intensityOfGroup (g : Nat × List SessionRecord) : String :=
  let sessionCount := g.2.length
  let totalDuration : Int := (g.2.map effDur).sum
  let avgDuration : Rat :=
    if sessionCount > 0 then (totalDuration : Rat) / (sessionCount : Rat) else 0
  classifyIntensity avgDuration sessionCount

/-- The `sessionIntensity` counter of `calculateSessionDepth`. -/
def intensityDistOf (sessions : List SessionRecord) : List (String × Nat) :=
  foldBump (fun g => some (intensityOfGroup g)) intensityInit (groupByUser sessions)

/-- Result shape of `calculateSessionDepth`. -/
structure SessionDepth where
  durationDistribution : List (String × Nat)
  timeOfDayDistribution : List (String × Nat)
  sessionIntensity : List (String × Nat)
  avgSessionsPerDay : Rat
  maxConsecutiveDays : Nat
deriving DecidableEq

/-- `calculateSessionDepth(sessions)` (admin.js 619-744). -/
def calculateSessionDepth (sessions : List SessionRecord) : SessionDepth :=
  { durationDistribution := durationDistOf sessions
    timeOfDayDistribution := todDistOf sessions
    sessionIntensity := intensityDistOf sessions
    avgSessionsPerDay := avgSessionsPerDayOf sessions
    maxConsecutiveDays := maxConsecutiveDaysOf sessions }

/-! ### Metrics assembler (`getBehaviorMetrics`, admin.js 340-549) -/

/-- The `sessionStats` object (admin.js 405-410). -/
structure SessionStats where
  avg : Int
  min : Int
  max : Int
  total : Int
deriving DecidableEq

/-- The `featureUsage` object (admin.js 489-492). -/
structure FeatureUsage where
  labels : List String
  values : List Nat
deriving DecidableEq

/-- The result shape of `getBehaviorMetrics` (admin.js 505-520).  The
object-valued fields that the `catch` block leaves empty are association
lists, so presence or absence of their keys is observable. -/
structure BehaviorMetrics where
  dau : Nat
  wau : Nat
  mau : Nat
  avgSessionMin : Int
  sessionStats : SessionStats
  retentionD1 : Nat
  active30 : List Nat
  sessions30 : List Nat
  avgDuration30 : List Int
  featureUsage : FeatureUsage
  featureTrends : List (String × List Nat)
  userEngagement : List (String × Nat)
  sessionFrequency : List (String × Nat)
  sessionDepth : SessionDepth
deriving DecidableEq

/-- Everything `getBehaviorMetrics` has fetched before the pure assembly
(admin.js 343-387, 442-478): the role-filtered session rows, the five
feature collections, the 30 window day labels and the three cutoffs. -/
structure AssemblerInput where
  rows : List SessionRecord
  homework : List FeatureRecord
  exams : List FeatureRecord
  notes : List FeatureRecord
  flashcards : List FeatureRecord
  pomodoro : List FeatureRecord
  labels : List Int
  since1 : Int
  since7 : Int
  since30 : Int
deriving DecidableEq

/-- `Math.round(rows.reduce(..)/rows.length)` (admin.js 403), 0 for no rows. -/
def avgSessionOf (rows : List SessionRecord) : Int :=
  if rows.length > 0 then
    round (((rows.map effDur).sum : Rat) / (rows.length : Rat))
  else 0

/-- `sessionDurations` (admin.js 404): positive effective durations. -/
def positiveDurations (rows : List SessionRecord) : List Int :=
  (rows.map effDur).filter (fun d => d > 0)

/-- `sessionStats` (admin.js 405-410). -/
def sessionStatsOf (rows : List SessionRecord) : SessionStats :=
  let ds := positiveDurations rows
  { avg := avgSessionOf rows
    min := (ds.min?).getD 0
    max := (ds.max?).getD 0
    total := ds.sum }

/-- Rows grouped on one day label (the `byDay`/`sessionsByDay` maps of
admin.js 415-425 read back at label `k`; rows with a missing `start_time`
make line 418 throw in the source, which the outer `catch` absorbs — here
they simply match no label). -/
def rowsOnDay (rows : List SessionRecord) (k : Int) : List SessionRecord :=
  rows.filter (fun r => r.startTime.map dayOf == some k)

/-- `active30` (admin.js 432): distinct users per day label. -/
def active30Of (rows : List SessionRecord) (labels : List Int) : List Nat :=
  labels.map (fun k => (((rowsOnDay rows k).map (fun r => r.userId)).dedup).length)

/-- `sessions30` (admin.js 433): session count per day label. -/
def sessions30Of (rows : List SessionRecord) (labels : List Int) : List Nat :=
  labels.map (fun k => (rowsOnDay rows k).length)

/-- `avgDuration30` (admin.js 434-437): rounded mean duration per day label. -/
def avgDuration30Of (rows : List SessionRecord) (labels : List Int) : List Int :=
  labels.map (fun k =>
    let ds := rowsOnDay rows k
    if ds.length > 0 then
      round (((ds.map effDur).sum : Rat) / (ds.length : Rat))
    else 0)

/-- The successful path of `getBehaviorMetrics` (admin.js 398-523). -/
def assembleOk (i : AssemblerInput) : BehaviorMetrics :=
  { dau := distinctUsers i.rows i.since1
    wau := distinctUsers i.rows i.since7
    mau := distinctUsers i.rows i.since30
    avgSessionMin := avgSessionOf i.rows
    sessionStats := sessionStatsOf i.rows
    retentionD1 := 0
    active30 := active30Of i.rows i.labels
    sessions30 := sessions30Of i.rows i.labels
    avgDuration30 := avgDuration30Of i.rows i.labels
    featureUsage :=
      { labels := ["任务管理", "考试规划", "笔记", "闪卡学习", "番茄时钟"]
        values := [i.homework.length, i.exams.length, i.notes.length,
                   i.flashcards.length, i.pomodoro.length] }
    featureTrends :=
      [("homework", calculateDailyTrend i.homework i.labels),
       ("exams", calculateDailyTrend i.exams i.labels),
       ("notes", calculateDailyTrend i.notes i.labels),
       ("flashcards", calculateDailyTrend i.flashcards i.labels),
       ("pomodoro", calculateDailyTrend i.pomodoro i.labels)]
    userEngagement := calculateUserEngagement i.rows
    sessionFrequency := calculateSessionFrequency i.rows
    sessionDepth := calculateSessionDepth i.rows }

/-- The literal fallback object of the `catch` block (admin.js 526-547).
Note `featureTrends`, `userEngagement` and `sessionFrequency` are empty
objects there, while the `sessionDepth` distributions are fully zero-keyed. -/
def defaultMetrics : BehaviorMetrics :=
  { dau := 0
    wau := 0
    mau := 0
    avgSessionMin := 0
    sessionStats := { avg := 0, min := 0, max := 0, total := 0 }
    retentionD1 := 0
    active30 := List.replicate 30 0
    sessions30 := List.replicate 30 0
    avgDuration30 := List.replicate 30 0
    featureUsage := { labels := [], values := [] }
    featureTrends := []
    userEngagement := []
    sessionFrequency := []
    sessionDepth :=
      { durationDistribution := durationInit
        timeOfDayDistribution := todInit
        sessionIntensity := intensityInit
        avgSessionsPerDay := 0
        maxConsecutiveDays := 0 } }

/-- `getBehaviorMetrics` with its `try/catch`: a failing stage (modelled as
an `error` input) yields the fallback object, a successful fetch is
assembled. -/
def getBehaviorMetrics (i : Except String AssemblerInput) : BehaviorMetrics :=
  match i with
  | Except.ok x => assembleOk x
  | Except.error _ => defaultMetrics

/-! ### Specification-side streak definition

Modelled from the spec: the longest run of dates in a sorted list where each
successive date is exactly one calendar day after the previous. -/

/-- Length of the consecutive run starting at the head of a sorted list. -/
def runFrom : List Int → Nat
  | [] => 0
  | [_] => 1
  | a :: b :: rest => if b - a = 1 then 1 + runFrom (b :: rest) else 1

/-- Longest consecutive run in a sorted list: the best run starting at any
position. -/
def longestRun : List Int → Nat
  | [] => 0
  | a :: rest => max (runFrom (a :: rest)) (longestRun rest)

/-! ### Counter lemmas -/

lemma sumVals_nil {κ : Type} : sumVals ([] : List (κ × Nat)) = 0 := rfl

lemma sumVals_cons {κ : Type} (p : κ × Nat) (m : List (κ × Nat)) :
    sumVals (p :: m) = p.2 + sumVals m := by
  simp [sumVals]

lemma keysOf_bumpKey {κ : Type} [DecidableEq κ] (k : κ) (m : List (κ × Nat)) :
    keysOf (bumpKey k m) = keysOf m := by
  induction m with
  | nil => rfl
  | cons p rest ih =>
      obtain ⟨k', v⟩ := p
      by_cases h : k' = k
      · simp [bumpKey, keysOf, h]
      · simpa [bumpKey, keysOf, h] using ih

lemma keysOf_nil {κ : Type} : keysOf ([] : List (κ × Nat)) = [] := rfl

lemma keysOf_cons {κ : Type} (p : κ × Nat) (m : List (κ × Nat)) :
    keysOf (p :: m) = p.1 :: keysOf m := rfl

lemma getVal_bumpKey_ne {κ : Type} [DecidableEq κ] {k k' : κ} (m : List (κ × Nat))
    (h : k ≠ k') : getVal k (bumpKey k' m) = getVal k m := by
  induction m with
  | nil => rfl
  | cons p rest ih =>
      obtain ⟨a, v⟩ := p
      by_cases ha : a = k'
      · have hak : ¬ a = k := fun hc => h (hc ▸ ha)
        simp [bumpKey, getVal, ha, hak, Ne.symm h]
      · by_cases hak : a = k
        · simp [bumpKey, getVal, ha, hak, h]
        · simp [bumpKey, getVal, ha, hak, ih]

lemma bumpKey_absent {κ : Type} [DecidableEq κ] {k : κ} (m : List (κ × Nat))
    (h : k ∉ keysOf m) : bumpKey k m = m := by
  induction m with
  | nil => rfl
  | cons p rest ih =>
      obtain ⟨a, v⟩ := p
      rw [keysOf_cons, List.mem_cons] at h
      push_neg at h
      obtain ⟨h1, h2⟩ := h
      have ha : ¬ a = k := fun hc => h1 hc.symm
      simp [bumpKey, ha, ih h2]

lemma getVal_bumpKey_self {κ : Type} [DecidableEq κ] {k : κ} (m : List (κ × Nat))
    (h : k ∈ keysOf m) : getVal k (bumpKey k m) = getVal k m + 1 := by
  induction m with
  | nil => exact absurd h (by simp [keysOf_nil])
  | cons p rest ih =>
      obtain ⟨a, v⟩ := p
      by_cases ha : a = k
      · simp [bumpKey, getVal, ha]
      · rw [keysOf_cons, List.mem_cons] at h
        have hrest : k ∈ keysOf rest := by
          rcases h with hc | hc
          · exact absurd hc.symm ha
          · exact hc
        simp [bumpKey, getVal, ha, ih hrest]

lemma sumVals_bumpKey {κ : Type} [DecidableEq κ] (k : κ) (m : List (κ × Nat))
    (h : k ∈ keysOf m) : sumVals (bumpKey k m) = sumVals m + 1 := by
  induction m with
  | nil => exact absurd h (by simp [keysOf_nil])
  | cons p rest ih =>
      obtain ⟨a, v⟩ := p
      by_cases ha : a = k
      · simp [bumpKey, ha, sumVals_cons]
        omega
      · rw [keysOf_cons, List.mem_cons] at h
        have hrest : k ∈ keysOf rest := by
          rcases h with hc | hc
          · exact absurd hc.symm ha
          · exact hc
        simp only [bumpKey, if_neg ha, sumVals_cons]
        rw [ih hrest]
        omega

lemma foldBump_nil {α κ : Type} [DecidableEq κ] (f : α → Option κ)
    (init : List (κ × Nat)) : foldBump f init [] = init := rfl

lemma foldBump_cons {α κ : Type} [DecidableEq κ] (f : α → Option κ)
    (init : List (κ × Nat)) (x : α) (xs : List α) :
    foldBump f init (x :: xs)
      = foldBump f (match f x with | some k => bumpKey k init | none => init) xs := rfl

lemma keysOf_foldBump {α κ : Type} [DecidableEq κ] (f : α → Option κ)
    (init : List (κ × Nat)) (xs : List α) :
    keysOf (foldBump f init xs) = keysOf init := by
  induction xs generalizing init with
  | nil => rfl
  | cons x rest ih =>
      rw [foldBump_cons]
      cases hf : f x with
      | none => simpa [hf] using ih init
      | some k =>
          have := ih (bumpKey k init)
          simpa [hf, keysOf_bumpKey] using this

lemma sumVals_foldBump {α κ : Type} [DecidableEq κ] (f : α → Option κ)
    (init : List (κ × Nat)) (xs : List α)
    (h : ∀ x ∈ xs, ∀ k, f x = some k → k ∈ keysOf init) :
    sumVals (foldBump f init xs)
      = sumVals init + (xs.filter (fun x => (f x).isSome)).length := by
  induction xs generalizing init with
  | nil => simp [foldBump_nil]
  | cons x rest ih =>
      rw [foldBump_cons]
      cases hf : f x with
      | none =>
          have := ih init (fun y hy => h y (List.mem_cons_of_mem x hy))
          simpa [hf, List.filter_cons] using this
      | some k =>
          have hk : k ∈ keysOf init := h x (List.mem_cons_self x rest) k hf
          have hrest : ∀ y ∈ rest, ∀ k', f y = some k' → k' ∈ keysOf (bumpKey k init) := by
            intro y hy k' hk'
            rw [keysOf_bumpKey]
            exact h y (List.mem_cons_of_mem x hy) k' hk'
          have step := ih (bumpKey k init) hrest
          simp only [hf] at step
          rw [step, sumVals_bumpKey k init hk]
          simp [List.filter_cons, hf]
          omega

lemma getVal_foldBump {α κ : Type} [DecidableEq κ] (f : α → Option κ) (k : κ)
    (init : List (κ × Nat)) (xs : List α)
    (h : ∀ x ∈ xs, ∀ k', f x = some k' → k' ∈ keysOf init) :
    getVal k (foldBump f init xs)
      = getVal k init + (xs.filter (fun x => decide (f x = some k))).length := by
  induction xs generalizing init with
  | nil => simp [foldBump_nil]
  | cons x rest ih =>
      rw [foldBump_cons]
      cases hf : f x with
      | none =>
          have := ih init (fun y hy => h y (List.mem_cons_of_mem x hy))
          simpa [hf, List.filter_cons] using this
      | some k' =>
          have hk' : k' ∈ keysOf init := h x (List.mem_cons_self x rest) k' hf
          have hrest : ∀ y ∈ rest, ∀ k₀, f y = some k₀ → k₀ ∈ keysOf (bumpKey k' init) := by
            intro y hy k₀ hk₀
            rw [keysOf_bumpKey]
            exact h y (List.mem_cons_of_mem x hy) k₀ hk₀
          have step := ih (bumpKey k' init) hrest
          simp only [hf] at step
          rw [step]
          by_cases hkk : k = k'
          · subst hkk
            rw [getVal_bumpKey_self init hk']
            simp [List.filter_cons, hf]
            omega
          · rw [getVal_bumpKey_ne init hkk]
            simp [List.filter_cons, hf, Ne.symm hkk]

/-! ### Bucket functions land in their label sets -/

lemma durBucket_mem (d : Int) : durBucket d ∈ keysOf durationInit := by
  simp only [durBucket]
  split_ifs <;> simp [durationInit, keysOf]

lemma todBucket_mem (t : Int) : todBucket t ∈ keysOf todInit := by
  simp only [todBucket]
  split_ifs <;> simp [todInit, keysOf]

lemma freqBucket_mem (c : Nat) : freqBucket c ∈ keysOf frequencyInit := by
  simp only [freqBucket]
  split_ifs <;> simp [frequencyInit, keysOf]

lemma engagementTier_mem (c : Nat) : engagementTier c ∈ keysOf engagementInit := by
  simp only [engagementTier]
  split_ifs <;> simp [engagementInit, keysOf]

lemma classifyIntensity_mem (a : Rat) (c : Nat) :
    classifyIntensity a c ∈ keysOf intensityInit := by
  simp only [classifyIntensity]
  split_ifs <;> simp [intensityInit, keysOf]

/-! ### Groups produced by `groupByUser` are nonempty -/

lemma addSession_nonempty (uid : Nat) (s : SessionRecord)
    (m : List (Nat × List SessionRecord)) (h : ∀ g ∈ m, g.2 ≠ []) :
    ∀ g ∈ addSession uid s m, g.2 ≠ [] := by
  induction m with
  | nil =>
      intro g hg
      simp [addSession] at hg
      subst hg
      simp
  | cons p rest ih =>
      obtain ⟨u, ss⟩ := p
      intro g hg
      by_cases hu : u = uid
      · simp [addSession, hu] at hg
        rcases hg with hg | hg
        · subst hg
          simp
        · exact h g (List.mem_cons_of_mem _ hg)
      · simp only [addSession, if_neg hu] at hg
        rcases List.mem_cons.mp hg with hg | hg
        · subst hg
          exact h (u, ss) (List.mem_cons_self _ _)
        · exact ih (fun g' hg' => h g' (List.mem_cons_of_mem _ hg')) g hg

lemma groupByUser_nonempty (sessions : List SessionRecord) :
    ∀ g ∈ groupByUser sessions, g.2 ≠ [] := by
  suffices h : ∀ acc, (∀ g ∈ acc, g.2 ≠ []) →
      ∀ g ∈ sessions.foldl
        (fun acc s =>
          match s.userId with
          | some uid => addSession uid s acc
          | none => acc) acc, g.2 ≠ [] by
    exact h [] (by simp)
  induction sessions with
  | nil => intro acc hacc; simpa using hacc
  | cons s rest ih =>
      intro acc hacc
      cases hs : s.userId with
      | none => simpa [List.foldl, hs] using ih acc hacc
      | some uid =>
          have := ih (addSession uid s acc) (addSession_nonempty uid s acc hacc)
          simpa [List.foldl, hs] using this

lemma intensityOfGroup_mem (g : Nat × List SessionRecord) :
    intensityOfGroup g ∈ keysOf intensityInit := by
  simp only [intensityOfGroup]
  exact classifyIntensity_mem _ _

lemma engagementTier_ne_inactive {c : Nat} (h : 1 ≤ c) :
    engagementTier c ≠ "inactive" := by
  simp only [engagementTier]
  split_ifs
  all_goals decide

/-- C4: every fixed-label distribution of the engine (duration, time-of-day,
frequency, intensity, engagement tier) enumerates all of its defined labels,
and its counts sum to the number of rows (duration), rows with a start time
(time-of-day), or grouped users (frequency, intensity, engagement) that were
classified — nothing is silently dropped. -/
theorem C4_fixed_label_distributions (sessions : List SessionRecord) :
    keysOf (calculateSessionDepth sessions).durationDistribution = durationLabels ∧
    sumVals (calculateSessionDepth sessions).durationDistribution = sessions.length ∧
    keysOf (calculateSessionDepth sessions).timeOfDayDistribution = todLabels ∧
    sumVals (calculateSessionDepth sessions).timeOfDayDistribution
      = (sessions.filter (fun s => s.startTime.isSome)).length ∧
    keysOf (calculateSessionFrequency sessions)
      = ["1-2次", "3-5次", "6-10次", "11-20次", "20+次"] ∧
    sumVals (calculateSessionFrequency sessions) = (userSessionCount sessions).length ∧
    keysOf (calculateSessionDepth sessions).sessionIntensity = intensityLabels ∧
    sumVals (calculateSessionDepth sessions).sessionIntensity
      = (groupByUser sessions).length ∧
    keysOf (calculateUserEngagement sessions) = ["high", "medium", "low", "inactive"] ∧
    sumVals (calculateUserEngagement sessions) = (groupByUser sessions).length := by
  refine ⟨?_, ?_, ?_, ?_, ?_, ?_, ?_, ?_, ?_, ?_⟩
  · show keysOf (durationDistOf sessions) = durationLabels
    rw [durationDistOf, keysOf_foldBump]
    rfl
  · show sumVals (durationDistOf sessions) = sessions.length
    rw [durationDistOf, sumVals_foldBump]
    · simp [durationInit, sumVals]
    · intro x _ k hk
      simp only [Option.some.injEq] at hk
      exact hk ▸ durBucket_mem _
  · show keysOf (todDistOf sessions) = todLabels
    rw [todDistOf, keysOf_foldBump]
    rfl
  · show sumVals (todDistOf sessions)
      = (sessions.filter (fun s => s.startTime.isSome)).length
    rw [todDistOf, sumVals_foldBump]
    · simp [todInit, sumVals]
    · intro x _ k hk
      rw [Option.map_eq_some'] at hk
      obtain ⟨t, _, ht⟩ := hk
      exact ht ▸ todBucket_mem t
  · rw [calculateSessionFrequency, keysOf_foldBump]
    rfl
  · rw [calculateSessionFrequency, sumVals_foldBump]
    · simp [frequencyInit, sumVals]
    · intro x _ k hk
      simp only [Option.some.injEq] at hk
      exact hk ▸ freqBucket_mem _
  · show keysOf (intensityDistOf sessions) = intensityLabels
    rw [intensityDistOf, keysOf_foldBump]
    rfl
  · show sumVals (intensityDistOf sessions) = (groupByUser sessions).length
    rw [intensityDistOf, sumVals_foldBump]
    · simp [intensityInit, sumVals]
    · intro x _ k hk
      simp only [Option.some.injEq] at hk
      exact hk ▸ intensityOfGroup_mem _
  · rw [calculateUserEngagement, keysOf_foldBump]
    rfl
  · rw [calculateUserEngagement, sumVals_foldBump]
    · simp [engagementInit, sumVals]
    · intro x _ k hk
      simp only [Option.some.injEq] at hk
      exact hk ▸ engagementTier_mem _

/-- C6: the session-intensity classifier, with `avgDuration` in seconds and
the user's session count, returns "短时高频" (short-frequent) when
`avgDuration < 300 ∧ count ≥ 10`, "长时低频" (long-infrequent) when
`avgDuration ≥ 600 ∧ count < 5`, "均衡使用" (balanced) when
`avgDuration ≥ 300 ∧ count ≥ 5`, and "浅度使用" (shallow) otherwise; every
user lands in exactly one of the four classes, and the spec's four worked
examples hold. -/
theorem C6_intensity_classification (avg : Rat) (c : Nat) :
    (avg < 300 ∧ 10 ≤ c → classifyIntensity avg c = "短时高频") ∧
    (600 ≤ avg ∧ c < 5 → classifyIntensity avg c = "长时低频") ∧
    (300 ≤ avg ∧ 5 ≤ c → classifyIntensity avg c = "均衡使用") ∧
    (¬(avg < 300 ∧ 10 ≤ c) ∧ ¬(600 ≤ avg ∧ c < 5) ∧ ¬(300 ≤ avg ∧ 5 ≤ c) →
      classifyIntensity avg c = "浅度使用") ∧
    classifyIntensity avg c ∈ intensityLabels ∧
    classifyIntensity 200 15 = "短时高频" ∧
    classifyIntensity 700 3 = "长时低频" ∧
    classifyIntensity 400 6 = "均衡使用" ∧
    classifyIntensity 100 2 = "浅度使用" := by
  refine ⟨?_, ?_, ?_, ?_, ?_, by decide, by decide, by decide, by decide⟩
  · intro h
    simp only [classifyIntensity, ge_iff_le]
    rw [if_pos h]
  · intro h
    have hn1 : ¬(avg < 300 ∧ 10 ≤ c) := fun hc => absurd hc.1 (by linarith [h.1])
    simp only [classifyIntensity, ge_iff_le]
    rw [if_neg hn1, if_pos h]
  · intro h
    have hn1 : ¬(avg < 300 ∧ 10 ≤ c) := fun hc => absurd hc.1 (by linarith [h.1])
    have hn2 : ¬(600 ≤ avg ∧ c < 5) := fun hc => absurd hc.2 (by omega)
    simp only [classifyIntensity, ge_iff_le]
    rw [if_neg hn1, if_neg hn2, if_pos h]
  · intro h
    obtain ⟨hn1, hn2, hn3⟩ := h
    simp only [classifyIntensity, ge_iff_le]
    rw [if_neg hn1, if_neg hn2, if_neg hn3]
  · have := classifyIntensity_mem avg c
    simpa [intensityInit, intensityLabels, keysOf] using this

/-- Witness for C6 at the spec's first worked example. -/
theorem C6_intensity_classification_witness :
    ((200 : Rat) < 300 ∧ 10 ≤ 15) ∧ classifyIntensity 200 15 = "短时高频" :=
  ⟨⟨by norm_num, by norm_num⟩,
    (C6_intensity_classification 200 15).1 ⟨by norm_num, by norm_num⟩⟩

/-- C7: the duration distribution floors each session's effective duration
from seconds to minutes and buckets it into 0-5, 5-15, 15-30, 30-60 and 60+
minutes; all five labels are always present, and the count at each label is
exactly the number of sessions that bucket there (each session in exactly
one bucket). -/
theorem C7_duration_distribution (sessions : List SessionRecord) (d : Int) :
    keysOf (calculateSessionDepth sessions).durationDistribution = durationLabels ∧
    (∀ L, getVal L (calculateSessionDepth sessions).durationDistribution
        = (sessions.filter (fun s => decide (durBucket (effDur s) = L))).length) ∧
    (Int.fdiv d 60 ≤ 5 → durBucket d = "0-5分钟") ∧
    (5 < Int.fdiv d 60 ∧ Int.fdiv d 60 ≤ 15 → durBucket d = "5-15分钟") ∧
    (15 < Int.fdiv d 60 ∧ Int.fdiv d 60 ≤ 30 → durBucket d = "15-30分钟") ∧
    (30 < Int.fdiv d 60 ∧ Int.fdiv d 60 ≤ 60 → durBucket d = "30-60分钟") ∧
    (60 < Int.fdiv d 60 → durBucket d = "60+分钟") := by
  refine ⟨?_, ?_, ?_, ?_, ?_, ?_, ?_⟩
  · show keysOf (durationDistOf sessions) = durationLabels
    rw [durationDistOf, keysOf_foldBump]
    rfl
  · intro L
    show getVal L (durationDistOf sessions) = _
    rw [durationDistOf, getVal_foldBump]
    · have h0 : getVal L durationInit = 0 := by
        simp only [durationInit, getVal]
        split_ifs <;> rfl
      simp [h0]
    · intro x _ k hk
      simp only [Option.some.injEq] at hk
      exact hk ▸ durBucket_mem _
  all_goals
    simp only [durBucket]
    split_ifs <;> intro h <;> first | rfl | omega

/-- Witness for C7: a 360-second session floors to 6 minutes and lands in
the 5-15 bucket. -/
theorem C7_duration_distribution_witness :
    (5 < Int.fdiv 360 60 ∧ Int.fdiv 360 60 ≤ 15) ∧ durBucket 360 = "5-15分钟" :=
  ⟨by decide, (C7_duration_distribution [] 360).2.2.2.1 (by decide)⟩

/-- C8: the engagement classifier groups sessions by user, classifies each
user by session count (≥12 high, 4-11 medium, 1-3 low), always returns all
four tier keys, and its inactive count is 0 for every input because every
grouped user has at least one session. -/
theorem C8_engagement_tiers (sessions : List SessionRecord) (c : Nat) :
    keysOf (calculateUserEngagement sessions) = ["high", "medium", "low", "inactive"] ∧
    getVal "inactive" (calculateUserEngagement sessions) = 0 ∧
    (12 ≤ c → engagementTier c = "high") ∧
    (4 ≤ c ∧ c < 12 → engagementTier c = "medium") ∧
    (1 ≤ c ∧ c < 4 → engagementTier c = "low") ∧
    (∀ g ∈ groupByUser sessions, 1 ≤ g.2.length) := by
  have hne : ∀ g ∈ groupByUser sessions, 1 ≤ g.2.length := by
    intro g hg
    exact List.length_pos.mpr (groupByUser_nonempty sessions g hg)
  refine ⟨?_, ?_, ?_, ?_, ?_, hne⟩
  · rw [calculateUserEngagement, keysOf_foldBump]
    rfl
  · rw [calculateUserEngagement, getVal_foldBump]
    · have hnil :
          (groupByUser sessions).filter
            (fun g => decide (some (engagementTier g.2.length) = some "inactive")) = [] := by
        rw [List.filter_eq_nil_iff]
        intro g hg
        simp only [Option.some.injEq, decide_eq_true_eq]
        exact engagementTier_ne_inactive (hne g hg)
      rw [hnil]
      decide
    · intro x _ k hk
      simp only [Option.some.injEq] at hk
      exact hk ▸ engagementTier_mem _
  · intro h
    simp only [engagementTier, ge_iff_le]
    rw [if_pos h]
  · intro h
    simp only [engagementTier, ge_iff_le]
    rw [if_neg (by omega), if_pos h.1]
  · intro h
    simp only [engagementTier, ge_iff_le]
    rw [if_neg (by omega), if_neg (by omega), if_pos h.1]

/-- Witness for C8 at a 15-session user count. -/
theorem C8_engagement_tiers_witness :
    (12 ≤ 15 ∧ engagementTier 15 = "high") ∧
    getVal "inactive" (calculateUserEngagement []) = 0 :=
  ⟨⟨by decide, (C8_engagement_tiers [] 15).2.2.1 (by decide)⟩,
    (C8_engagement_tiers [] 0).2.1⟩

/-! ### C5: distinct-user counts are monotone in the cutoff -/

lemma startGE_mono {r : SessionRecord} {c c' : Int} (h : c' ≤ c)
    (hr : startGE r c = true) : startGE r c' = true := by
  cases hst : r.startTime with
  | none => rw [startGE, hst] at hr; exact absurd hr (by simp)
  | some t =>
      rw [startGE, hst] at hr ⊢
      simp only [decide_eq_true_eq] at hr ⊢
      exact le_trans h hr

lemma distinctUsers_mono (rows : List SessionRecord) {c c' : Int} (h : c' ≤ c) :
    distinctUsers rows c ≤ distinctUsers rows c' := by
  have hsub : List.Sublist (rows.filter (fun r => startGE r c))
      (rows.filter (fun r => startGE r c')) :=
    List.monotone_filter_right rows (fun r hr => startGE_mono h hr)
  have hmap := hsub.map (fun r => r.userId)
  have hsubset :
      ((rows.filter (fun r => startGE r c)).map (fun r => r.userId)).toFinset ⊆
      ((rows.filter (fun r => startGE r c')).map (fun r => r.userId)).toFinset := by
    intro a ha
    rw [List.mem_toFinset] at ha ⊢
    exact hmap.subset ha
  rw [distinctUsers, distinctUsers, ← List.card_toFinset, ← List.card_toFinset]
  exact Finset.card_le_card hsubset

/-- C5: for every fixed session collection the distinct-user count is
monotonically non-decreasing as the cutoff window widens: with cutoffs
ordered `since30 ≤ since7 ≤ since1` (a wider window has an earlier cutoff),
DAU ≤ WAU ≤ MAU. -/
theorem C5_dau_wau_mau_monotone (rows : List SessionRecord)
    (since1 since7 since30 : Int) (h71 : since7 ≤ since1) (h307 : since30 ≤ since7) :
    distinctUsers rows since1 ≤ distinctUsers rows since7 ∧
    distinctUsers rows since7 ≤ distinctUsers rows since30 :=
  ⟨distinctUsers_mono rows h71, distinctUsers_mono rows h307⟩

/-- Witness for C5 on two concrete sessions and the 1/7/30-day cutoffs of a
day-40 "now". -/
theorem C5_dau_wau_mau_monotone_witness :
    ((39 * msPerDay ≤ 33 * msPerDay ∨ True) ∧
      distinctUsers
          [{ userId := some 1, duration := some 60, startTime := some (39 * msPerDay) },
           { userId := some 2, duration := some 60, startTime := some (12 * msPerDay) }]
          (39 * msPerDay)
        ≤ distinctUsers
          [{ userId := some 1, duration := some 60, startTime := some (39 * msPerDay) },
           { userId := some 2, duration := some 60, startTime := some (12 * msPerDay) }]
          (33 * msPerDay)) ∧
    distinctUsers
        [{ userId := some 1, duration := some 60, startTime := some (39 * msPerDay) },
         { userId := some 2, duration := some 60, startTime := some (12 * msPerDay) }]
        (33 * msPerDay)
      ≤ distinctUsers
        [{ userId := some 1, duration := some 60, startTime := some (39 * msPerDay) },
         { userId := some 2, duration := some 60, startTime := some (12 * msPerDay) }]
        (10 * msPerDay) := by
  have h := C5_dau_wau_mau_monotone
    [{ userId := some 1, duration := some 60, startTime := some (39 * msPerDay) },
     { userId := some 2, duration := some 60, startTime := some (12 * msPerDay) }]
    (39 * msPerDay) (33 * msPerDay) (10 * msPerDay) (by decide) (by decide)
  exact ⟨⟨Or.inr trivial, h.1⟩, h.2⟩

/-! ### C9: daily trend bucketer -/

lemma getVal_bumpDay (k k' : Int) (m : List (Int × Nat)) :
    getVal k (bumpDay k' m) = getVal k m + (if k' = k then 1 else 0) := by
  induction m with
  | nil => simp [bumpDay, getVal]
  | cons p rest ih =>
      obtain ⟨a, v⟩ := p
      by_cases ha : a = k'
      · subst ha
        by_cases hk : a = k
        · simp [bumpDay, getVal, hk]
        · simp [bumpDay, getVal, hk]
      · by_cases hk : a = k
        · subst hk
          simp [bumpDay, getVal, Ne.symm ha, ha]
        · simp [bumpDay, getVal, ha, hk, ih]

lemma getVal_byDayCounts (data : List FeatureRecord) (k : Int) :
    getVal k (byDayCounts data)
      = (data.filter (fun r => decide (r.createdAt.map dayOf = some k))).length := by
  suffices h : ∀ init : List (Int × Nat),
      getVal k (data.foldl
        (fun acc r =>
          match r.createdAt with
          | some t => bumpDay (dayOf t) acc
          | none => acc) init)
      = getVal k init
        + (data.filter (fun r => decide (r.createdAt.map dayOf = some k))).length by
    simpa [byDayCounts, getVal] using h []
  induction data with
  | nil => simp
  | cons r rest ih =>
      intro init
      rw [List.foldl_cons]
      cases hr : r.createdAt with
      | none => simpa [hr, List.filter_cons] using ih init
      | some t =>
          simp only [hr]
          rw [ih (bumpDay (dayOf t) init), getVal_bumpDay]
          by_cases hk : dayOf t = k
          · simp [List.filter_cons, hr, hk]
            omega
          · simp [List.filter_cons, hr, hk]

/-- C9: the daily trend bucketer returns one count per requested day label,
aligned 1:1 (the i-th output is the number of records whose day key equals
the i-th label, 0 when none); records with no timestamp or whose day is
outside the label window contribute to no output entry and cause no error. -/
theorem C9_daily_trend_alignment (data : List FeatureRecord) (labels : List Int) :
    (calculateDailyTrend data labels).length = labels.length ∧
    (∀ i, i < labels.length →
      (calculateDailyTrend data labels).getD i 0
        = (data.filter
            (fun r => decide (r.createdAt.map dayOf = some (labels.getD i 0)))).length) ∧
    (∀ r : FeatureRecord, (∀ t, r.createdAt = some t → dayOf t ∉ labels) →
      calculateDailyTrend (data ++ [r]) labels = calculateDailyTrend data labels) := by
  refine ⟨by simp [calculateDailyTrend], ?_, ?_⟩
  · intro i hi
    have hlen : i < (calculateDailyTrend data labels).length := by
      simpa [calculateDailyTrend] using hi
    rw [List.getD_eq_getElem (calculateDailyTrend data labels) 0 hlen,
        List.getD_eq_getElem labels 0 hi]
    simp only [calculateDailyTrend, List.getElem_map]
    exact getVal_byDayCounts data _
  · intro r hr
    have hstep : ∀ k ∈ labels, getVal k (byDayCounts (data ++ [r])) = getVal k (byDayCounts data) := by
      intro k hk
      have : byDayCounts (data ++ [r])
          = (match r.createdAt with
             | some t => bumpDay (dayOf t) (byDayCounts data)
             | none => byDayCounts data) := by
        rw [byDayCounts, List.foldl_append]
        rfl
      rw [this]
      cases hc : r.createdAt with
      | none => rfl
      | some t =>
          rw [getVal_bumpDay]
          have hne : dayOf t ≠ k := fun hcc => (hr t hc) (hcc ▸ hk)
          simp [hne]
    simp only [calculateDailyTrend]
    exact List.map_congr_left (fun k hk => hstep k hk)

/-- Witness for C9: a record with no timestamp and one dated outside the
window leave the trend untouched. -/
theorem C9_daily_trend_alignment_witness :
    (∀ t : Int, ({ fid := 9, userId := some 1, createdAt := none } : FeatureRecord).createdAt = some t →
        dayOf t ∉ [(5 : Int), 6, 7]) ∧
    calculateDailyTrend
        ([{ fid := 1, userId := some 1, createdAt := some (5 * msPerDay) }]
          ++ [{ fid := 9, userId := some 1, createdAt := none }]) [5, 6, 7]
      = calculateDailyTrend
          [{ fid := 1, userId := some 1, createdAt := some (5 * msPerDay) }] [5, 6, 7] := by
  have hr : ∀ t : Int,
      ({ fid := 9, userId := some 1, createdAt := none } : FeatureRecord).createdAt = some t →
      dayOf t ∉ [(5 : Int), 6, 7] := by
    intro t ht
    exact absurd ht (by simp)
  exact ⟨hr,
    (C9_daily_trend_alignment
      [{ fid := 1, userId := some 1, createdAt := some (5 * msPerDay) }] [5, 6, 7]).2.2
      { fid := 9, userId := some 1, createdAt := none } hr⟩

/-! ### C3: average sessions per active day -/

/-- Ten sessions spread over five distinct days (two per day). -/
def tenSessionsFiveDays : List SessionRecord :=
  (List.range 10).map
    (fun n => { userId := some 1, duration := some 60, startTime := some ((n / 2 : Nat) * msPerDay) })

/-- C3: `avgSessionsPerDay` is the total session count divided by the number
of distinct active days, rounded to two decimal places, and is the number 0
(not an error) when there is no active day; 10 sessions over 5 distinct days
yield exactly 2. -/
theorem C3_avg_sessions_per_day (sessions : List SessionRecord) :
    ((uniqueDaysOf sessions).length = 0 →
      (calculateSessionDepth sessions).avgSessionsPerDay = 0) ∧
    (∀ n : Nat, (uniqueDaysOf sessions).length = n → 0 < n →
      (calculateSessionDepth sessions).avgSessionsPerDay
        = toFixed2 ((sessions.length : Rat) / (n : Rat))) ∧
    (calculateSessionDepth tenSessionsFiveDays).avgSessionsPerDay = 2 := by
  refine ⟨?_, ?_, ?_⟩
  case refine_3 =>
    show avgSessionsPerDayOf tenSessionsFiveDays = 2
    have hdays : (uniqueDaysOf tenSessionsFiveDays).length = 5 := by decide
    have htot : tenSessionsFiveDays.length = 10 := by decide
    simp only [avgSessionsPerDayOf, hdays, htot]
    rw [if_pos (by norm_num)]
    have h200 : ((10 : Nat) : Rat) / ((5 : Nat) : Rat) * 100 = ((200 : Int) : Rat) := by
      norm_num
    rw [toFixed2, h200, round_intCast]
    norm_num
  · intro h
    show avgSessionsPerDayOf sessions = 0
    simp [avgSessionsPerDayOf, h]
  · intro n hn hpos
    show avgSessionsPerDayOf sessions = _
    simp only [avgSessionsPerDayOf, hn]
    rw [if_pos hpos]

/-- Witness for C3 at the 10-sessions-over-5-days example. -/
theorem C3_avg_sessions_per_day_witness :
    ((uniqueDaysOf tenSessionsFiveDays).length = 5 ∧ 0 < 5) ∧
    (calculateSessionDepth tenSessionsFiveDays).avgSessionsPerDay
      = toFixed2 ((tenSessionsFiveDays.length : Rat) / ((5 : Nat) : Rat)) :=
  ⟨⟨by decide, by decide⟩,
    (C3_avg_sessions_per_day tenSessionsFiveDays).2.1 5 (by decide) (by decide)⟩

/-! ### C1: longest consecutive-day streak -/

lemma runFrom_pos {l : List Int} (h : l ≠ []) : 1 ≤ runFrom l := by
  match l with
  | [_] => simp [runFrom]
  | a :: b :: rest =>
      rw [runFrom]
      split_ifs <;> omega

lemma streakLoop_eq_spec : ∀ (rest : List Int) (prev : Int) (cur best : Nat),
    List.Chain' (· < ·) (prev :: rest) → 1 ≤ cur → cur ≤ best →
    streakLoop prev cur best rest
      = max best (max (cur - 1 + runFrom (prev :: rest)) (longestRun rest))
  | [], prev, cur, best, _, hc, hb => by
      simp only [streakLoop, runFrom, longestRun]
      omega
  | b :: rest', prev, cur, best, hchain, hc, hb => by
      obtain ⟨hpb, htail⟩ := List.chain'_cons.mp hchain
      have hR : 1 ≤ runFrom (b :: rest') := runFrom_pos (by simp)
      by_cases hd : b - prev = 1
      · have ih := streakLoop_eq_spec rest' b (cur + 1) (max best (cur + 1)) htail
          (by omega) (by omega)
        have hstep : streakLoop prev cur best (b :: rest')
            = streakLoop b (cur + 1) (max best (cur + 1)) rest' := by
          simp [streakLoop, hd]
        rw [hstep, ih]
        have hrun : runFrom (prev :: b :: rest') = 1 + runFrom (b :: rest') := by
          simp [runFrom, hd]
        have hlr : longestRun (b :: rest')
            = max (runFrom (b :: rest')) (longestRun rest') := by
          rw [longestRun]
        rw [hrun, hlr]
        omega
      · have hgt : b - prev > 1 := by omega
        have ih := streakLoop_eq_spec rest' b 1 best htail le_rfl (by omega)
        have hstep : streakLoop prev cur best (b :: rest')
            = streakLoop b 1 best rest' := by
          simp [streakLoop, hd, hgt]
        rw [hstep, ih]
        have hrun : runFrom (prev :: b :: rest') = 1 := by
          simp [runFrom, hd]
        have hlr : longestRun (b :: rest')
            = max (runFrom (b :: rest')) (longestRun rest') := by
          rw [longestRun]
        rw [hrun, hlr]
        omega

lemma userStreak_eq_longestRun {l : List Int}
    (hchain : List.Chain' (· < ·) l) (hne : l ≠ []) :
    userStreak l = longestRun l := by
  match l with
  | [] => exact absurd rfl hne
  | d :: rest =>
      rw [userStreak, streakLoop_eq_spec rest d 1 1 hchain le_rfl le_rfl]
      have hR : 1 ≤ runFrom (d :: rest) := runFrom_pos (by simp)
      have hlr : longestRun (d :: rest) = max (runFrom (d :: rest)) (longestRun rest) := by
        rw [longestRun]
      omega

lemma sortedDays_chain {l : List Int} (h : l.Nodup) :
    List.Chain' (· < ·) (sortedDays l) := by
  have hs : List.Sorted (· ≤ ·) (sortedDays l) := List.sorted_insertionSort _ l
  have hp : List.Perm (sortedDays l) l := List.perm_insertionSort _ l
  have hnd : (sortedDays l).Nodup := (hp.nodup_iff).mpr h
  have hlt : List.Pairwise (· < ·) (sortedDays l) := by
    have := hs.and hnd
    exact this.imp (fun hab => lt_of_le_of_ne hab.1 hab.2)
  exact List.chain'_iff_pairwise.mpr hlt

lemma sortedDays_ne_nil {l : List Int} (h : l ≠ []) : sortedDays l ≠ [] := by
  intro hc
  have hp : List.Perm (sortedDays l) l := List.perm_insertionSort _ l
  rw [hc] at hp
  exact h (hp.symm.eq_nil)

lemma addUserDay_invariant (uid : Nat) (d : Int)
    (m : List (Nat × List Int)) (h : ∀ g ∈ m, g.2.Nodup ∧ g.2 ≠ []) :
    ∀ g ∈ addUserDay uid d m, g.2.Nodup ∧ g.2 ≠ [] := by
  induction m with
  | nil =>
      intro g hg
      simp [addUserDay] at hg
      subst hg
      simp
  | cons p rest ih =>
      obtain ⟨u, ds⟩ := p
      intro g hg
      by_cases hu : u = uid
      · simp only [addUserDay, if_pos hu] at hg
        rcases List.mem_cons.mp hg with hg | hg
        · subst hg
          have hds := h (u, ds) (List.mem_cons_self _ _)
          by_cases hmem : d ∈ ds
          · simpa [hmem] using hds
          · refine ⟨?_, by simp [hmem]⟩
            simp only [if_neg hmem]
            rw [List.nodup_append]
            exact ⟨hds.1, List.nodup_singleton d, by simpa using hmem⟩
        · exact h g (List.mem_cons_of_mem _ hg)
      · simp only [addUserDay, if_neg hu] at hg
        rcases List.mem_cons.mp hg with hg | hg
        · subst hg
          exact h (u, ds) (List.mem_cons_self _ _)
        · exact ih (fun g' hg' => h g' (List.mem_cons_of_mem _ hg')) g hg

lemma userDaysOf_invariant (sessions : List SessionRecord) :
    ∀ g ∈ userDaysOf sessions, g.2.Nodup ∧ g.2 ≠ [] := by
  suffices h : ∀ acc, (∀ g ∈ acc, g.2.Nodup ∧ g.2 ≠ []) →
      ∀ g ∈ sessions.foldl
        (fun acc s =>
          match s.userId, s.startTime with
          | some uid, some t => addUserDay uid (dayOf t) acc
          | _, _ => acc) acc, g.2.Nodup ∧ g.2 ≠ [] by
    exact h [] (by simp)
  induction sessions with
  | nil => intro acc hacc; simpa using hacc
  | cons s rest ih =>
      intro acc hacc
      rw [List.foldl_cons]
      cases hu : s.userId with
      | none => simpa [hu] using ih acc hacc
      | some uid =>
          cases ht : s.startTime with
          | none => simpa [hu, ht] using ih acc hacc
          | some t =>
              have := ih (addUserDay uid (dayOf t) acc)
                (addUserDay_invariant uid (dayOf t) acc hacc)
              simpa [hu, ht] using this

lemma foldl_max_congr {α : Type} (l : List α) (f g : α → Nat)
    (h : ∀ x ∈ l, f x = g x) :
    ∀ a : Nat, l.foldl (fun m x => max m (f x)) a = l.foldl (fun m x => max m (g x)) a := by
  induction l with
  | nil => intro a; rfl
  | cons x rest ih =>
      intro a
      rw [List.foldl_cons, List.foldl_cons, h x (List.mem_cons_self _ _)]
      exact ih (fun y hy => h y (List.mem_cons_of_mem _ hy)) _

lemma dayOf_mul (d : Int) : dayOf (d * msPerDay) = d := by
  rw [dayOf]
  exact Int.mul_fdiv_cancel d (by decide)

/-- C1: the reported `maxConsecutiveDays` equals, for each user, the longest
run of that user's distinct session dates (sorted ascending) in which each
successive date is exactly one day after the previous — maximised over all
users; duplicate same-day sessions collapse to one date, a user with dates
D, D+1, D+2, D+5 contributes a streak of 3, two same-day sessions give 1,
and an empty session collection gives 0. -/
theorem C1_longest_streak (sessions : List SessionRecord) (uid : Nat) (D : Int) :
    maxConsecutiveDaysOf sessions
      = (userDaysOf sessions).foldl (fun m g => max m (longestRun (sortedDays g.2))) 0 ∧
    maxConsecutiveDaysOf
        [{ userId := some uid, duration := some 60, startTime := some (D * msPerDay) },
         { userId := some uid, duration := some 60, startTime := some ((D + 1) * msPerDay) },
         { userId := some uid, duration := some 60, startTime := some ((D + 2) * msPerDay) },
         { userId := some uid, duration := some 60, startTime := some ((D + 5) * msPerDay) }]
      = 3 ∧
    maxConsecutiveDaysOf
        [{ userId := some uid, duration := some 60, startTime := some (D * msPerDay) },
         { userId := some uid, duration := some 60, startTime := some (D * msPerDay) }]
      = 1 ∧
    maxConsecutiveDaysOf [] = 0 := by
  have hrefine : ∀ ss : List SessionRecord,
      maxConsecutiveDaysOf ss
        = (userDaysOf ss).foldl (fun m g => max m (longestRun (sortedDays g.2))) 0 := by
    intro ss
    rw [maxConsecutiveDaysOf]
    refine foldl_max_congr (userDaysOf ss) _ _ ?_ 0
    intro g hg
    obtain ⟨hnd, hne⟩ := userDaysOf_invariant ss g hg
    exact userStreak_eq_longestRun (sortedDays_chain hnd) (sortedDays_ne_nil hne)
  refine ⟨hrefine sessions, ?_, ?_, by rfl⟩
  · have m1 : D + 1 ∉ ([D] : List Int) := by simp
    have m2 : D + 2 ∉ ([D, D + 1] : List Int) := by simp
    have m3 : D + 5 ∉ ([D, D + 1, D + 2] : List Int) := by simp
    have hud : userDaysOf
        [{ userId := some uid, duration := some 60, startTime := some (D * msPerDay) },
         { userId := some uid, duration := some 60, startTime := some ((D + 1) * msPerDay) },
         { userId := some uid, duration := some 60, startTime := some ((D + 2) * msPerDay) },
         { userId := some uid, duration := some 60, startTime := some ((D + 5) * msPerDay) }]
        = [(uid, [D, D + 1, D + 2, D + 5])] := by
      simp [userDaysOf, addUserDay, dayOf_mul, m1, m2, m3]
    rw [maxConsecutiveDaysOf, hud]
    have o1 : D ≤ D + 1 := by omega
    have o2 : D + 1 ≤ D + 2 := by omega
    have o3 : D + 2 ≤ D + 5 := by omega
    have hsort : sortedDays [D, D + 1, D + 2, D + 5] = [D, D + 1, D + 2, D + 5] := by
      simp [sortedDays, List.insertionSort, List.orderedInsert, o1, o2, o3]
    have d1 : D + 1 - D = 1 := by omega
    have d2 : D + 2 - (D + 1) = 1 := by omega
    have d3 : D + 5 - (D + 2) = 3 := by omega
    simp only [List.foldl_cons, List.foldl_nil, hsort, userStreak, streakLoop, d1, d2, d3]
    norm_num
  · have mm : D ∈ ([D] : List Int) := by simp
    have hud : userDaysOf
        [{ userId := some uid, duration := some 60, startTime := some (D * msPerDay) },
         { userId := some uid, duration := some 60, startTime := some (D * msPerDay) }]
        = [(uid, [D])] := by
      simp [userDaysOf, addUserDay, dayOf_mul, mm]
    rw [maxConsecutiveDaysOf, hud]
    simp [sortedDays, userStreak, streakLoop]

/-! ### C10: malformed records degrade locally, the analyzer stays total -/

/-- Two session records that the depth/frequency analyzer cannot tell apart:
same user, same start time, same effective duration. -/
def SimDur (s s' : SessionRecord) : Prop :=
  s.userId = s'.userId ∧ s.startTime = s'.startTime ∧ effDur s = effDur s'

lemma forall2_foldl_congr {α γ : Type} (R : α → α → Prop) (step : γ → α → γ)
    {xs ys : List α} (h : List.Forall₂ R xs ys)
    (hstep : ∀ acc a b, R a b → step acc a = step acc b) :
    ∀ acc : γ, xs.foldl step acc = ys.foldl step acc := by
  induction h with
  | nil => intro acc; rfl
  | cons hab htail ih =>
      intro acc
      rw [List.foldl_cons, List.foldl_cons, hstep _ _ _ hab]
      exact ih _

lemma simDur_all_refl (l : List SessionRecord) : List.Forall₂ SimDur l l :=
  List.forall₂_same.mpr (fun _ _ => ⟨rfl, rfl, rfl⟩)

lemma map_effDur_eq {l l' : List SessionRecord} (h : List.Forall₂ SimDur l l') :
    l.map effDur = l'.map effDur := by
  induction h with
  | nil => rfl
  | cons hab _ ih => simp [ih, hab.2.2]

lemma filterMap_startTime_eq {l l' : List SessionRecord}
    (h : List.Forall₂ SimDur l l') :
    l.filterMap (fun s => s.startTime) = l'.filterMap (fun s => s.startTime) := by
  induction h with
  | nil => rfl
  | cons hab _ ih => simp [List.filterMap_cons, ih, hab.2.1]

/-- Group-level indistinguishability for `groupByUser` results. -/
def GroupSim (g g' : Nat × List SessionRecord) : Prop :=
  g.1 = g'.1 ∧ List.Forall₂ SimDur g.2 g'.2

lemma addSession_sim {uid : Nat} {s s' : SessionRecord}
    {m m' : List (Nat × List SessionRecord)} (hs : SimDur s s')
    (hm : List.Forall₂ GroupSim m m') :
    List.Forall₂ GroupSim (addSession uid s m) (addSession uid s' m') := by
  induction hm with
  | nil =>
      simp only [addSession]
      exact List.Forall₂.cons ⟨rfl, List.Forall₂.cons hs List.Forall₂.nil⟩ List.Forall₂.nil
  | cons hab htail ih =>
      rename_i g g' gs gs'
      obtain ⟨hkey, hss⟩ := hab
      obtain ⟨u, ds⟩ := g
      obtain ⟨u', ds'⟩ := g'
      simp only at hkey
      subst hkey
      by_cases hu : u = uid
      · simp only [addSession, if_pos hu]
        exact List.Forall₂.cons ⟨rfl, List.rel_append hss
          (List.Forall₂.cons hs List.Forall₂.nil)⟩ htail
      · simp only [addSession, if_neg hu]
        exact List.Forall₂.cons ⟨rfl, hss⟩ ih

lemma groupByUser_sim {l l' : List SessionRecord}
    (h : List.Forall₂ SimDur l l') :
    List.Forall₂ GroupSim (groupByUser l) (groupByUser l') := by
  suffices hgen : ∀ {xs ys : List SessionRecord}, List.Forall₂ SimDur xs ys →
      ∀ {acc acc' : List (Nat × List SessionRecord)}, List.Forall₂ GroupSim acc acc' →
      List.Forall₂ GroupSim
        (xs.foldl (fun acc s =>
          match s.userId with | some uid => addSession uid s acc | none => acc) acc)
        (ys.foldl (fun acc s =>
          match s.userId with | some uid => addSession uid s acc | none => acc) acc') by
    exact hgen h List.Forall₂.nil
  intro xs ys hxs
  induction hxs with
  | nil => intro acc acc' hacc; exact hacc
  | cons hab htail ih =>
      rename_i a b as bs
      intro acc acc' hacc
      rw [List.foldl_cons, List.foldl_cons]
      cases hu : a.userId with
      | none =>
          have hub : b.userId = none := hab.1 ▸ hu
          simp only [hu, hub]
          exact ih hacc
      | some uid =>
          have hub : b.userId = some uid := hab.1 ▸ hu
          simp only [hu, hub]
          exact ih (addSession_sim hab hacc)

lemma intensityOfGroup_congr {g g' : Nat × List SessionRecord} (h : GroupSim g g') :
    intensityOfGroup g = intensityOfGroup g' := by
  obtain ⟨_, hss⟩ := h
  have hlen : g.2.length = g'.2.length := hss.length_eq
  have hsum : (g.2.map effDur).sum = (g'.2.map effDur).sum := by
    rw [map_effDur_eq hss]
  simp only [intensityOfGroup, hlen, hsum]

lemma calculateSessionDepth_sim {l l' : List SessionRecord}
    (h : List.Forall₂ SimDur l l') :
    calculateSessionDepth l = calculateSessionDepth l' ∧
    calculateSessionFrequency l = calculateSessionFrequency l' := by
  have hdur : durationDistOf l = durationDistOf l' := by
    refine forall2_foldl_congr SimDur _ h ?_ durationInit
    intro acc a b hab
    simp only [hab.2.2]
  have htod : todDistOf l = todDistOf l' := by
    refine forall2_foldl_congr SimDur _ h ?_ todInit
    intro acc a b hab
    simp only [hab.2.1]
  have hint : intensityDistOf l = intensityDistOf l' := by
    rw [intensityDistOf, intensityDistOf]
    refine forall2_foldl_congr GroupSim _ (groupByUser_sim h) ?_ intensityInit
    intro acc a b hab
    simp only [intensityOfGroup_congr hab]
  have hfreq : userSessionCount l = userSessionCount l' := by
    rw [userSessionCount, userSessionCount]
    refine forall2_foldl_congr SimDur _ h ?_ []
    intro acc a b hab
    simp only [hab.1]
  have huniq : uniqueDaysOf l = uniqueDaysOf l' := by
    rw [uniqueDaysOf, uniqueDaysOf, filterMap_startTime_eq h]
  have hdays : userDaysOf l = userDaysOf l' := by
    rw [userDaysOf, userDaysOf]
    refine forall2_foldl_congr SimDur _ h ?_ []
    intro acc a b hab
    rw [hab.1, hab.2.1]
  refine ⟨?_, ?_⟩
  · simp only [calculateSessionDepth, hdur, htod, hint, avgSessionsPerDayOf, huniq,
      h.length_eq, maxConsecutiveDaysOf, hdays]
  · rw [calculateSessionFrequency, calculateSessionFrequency, hfreq]

/-- C10: the frequency/depth analyzer never fails on malformed records: a
missing (or non-numeric) `duration` is handled exactly like duration 0
everywhere, and a session with no `startTime` is excluded from the
time-of-day buckets, the active-day set and the streak computation, yet is
still counted by the frequency analysis exactly like a session that has any
start time. -/
theorem C10_malformed_records (s : SessionRecord) (rest : List SessionRecord) (t : Int) :
    (s.duration = none →
      calculateSessionDepth (s :: rest)
          = calculateSessionDepth ({ s with duration := some 0 } :: rest) ∧
      calculateSessionFrequency (s :: rest)
          = calculateSessionFrequency ({ s with duration := some 0 } :: rest)) ∧
    (s.startTime = none →
      (calculateSessionDepth (s :: rest)).timeOfDayDistribution
          = (calculateSessionDepth rest).timeOfDayDistribution ∧
      (calculateSessionDepth (s :: rest)).maxConsecutiveDays
          = (calculateSessionDepth rest).maxConsecutiveDays ∧
      uniqueDaysOf (s :: rest) = uniqueDaysOf rest ∧
      calculateSessionFrequency (s :: rest)
          = calculateSessionFrequency ({ s with startTime := some t } :: rest)) := by
  constructor
  · intro hd
    have hsim : SimDur s { s with duration := some 0 } := by
      refine ⟨rfl, rfl, ?_⟩
      simp [effDur, hd]
    exact calculateSessionDepth_sim (List.Forall₂.cons hsim (simDur_all_refl rest))
  · intro ht
    refine ⟨?_, ?_, ?_, ?_⟩
    · show todDistOf (s :: rest) = todDistOf rest
      rw [todDistOf, foldBump_cons]
      simp [ht]
      rfl
    · show maxConsecutiveDaysOf (s :: rest) = maxConsecutiveDaysOf rest
      have : userDaysOf (s :: rest) = userDaysOf rest := by
        rw [userDaysOf, userDaysOf, List.foldl_cons]
        cases hu : s.userId <;> simp [ht]
      rw [maxConsecutiveDaysOf, maxConsecutiveDaysOf, this]
    · rw [uniqueDaysOf, uniqueDaysOf, List.filterMap_cons, ht]
    · rw [calculateSessionFrequency, calculateSessionFrequency]
      have : userSessionCount (s :: rest)
          = userSessionCount ({ s with startTime := some t } :: rest) := by
        rw [userSessionCount, userSessionCount, List.foldl_cons, List.foldl_cons]
      rw [this]

/-- Witness for C10 on a concrete malformed record. -/
theorem C10_malformed_records_witness :
    (({ userId := some 7, duration := none, startTime := none } : SessionRecord).duration
        = none ∧
      calculateSessionDepth
          [{ userId := some 7, duration := none, startTime := none }]
        = calculateSessionDepth
          [{ userId := some 7, duration := some 0, startTime := none }]) ∧
    (({ userId := some 7, duration := none, startTime := none } : SessionRecord).startTime
        = none ∧
      (calculateSessionDepth
          [{ userId := some 7, duration := none, startTime := none }]).timeOfDayDistribution
        = (calculateSessionDepth ([] : List SessionRecord)).timeOfDayDistribution) := by
  have h := C10_malformed_records
    { userId := some 7, duration := none, startTime := none } [] 0
  exact ⟨⟨rfl, (h.1 rfl).1⟩, ⟨rfl, (h.2 rfl).1⟩⟩

/-! ### C2: the catch-all fallback of the assembler -/

/-- C2 counterexample: in the `catch` fallback the engagement-tier and
session-frequency distributions are empty objects — their keys are absent
rather than present with value 0, contradicting the claim that every
distribution key of the normal output shape is present. -/
theorem C2_counterexample_missing_keys :
    "high" ∉ keysOf (getBehaviorMetrics (Except.error "database failure")).userEngagement ∧
    "1-2次" ∉ keysOf (getBehaviorMetrics (Except.error "database failure")).sessionFrequency ∧
    (getBehaviorMetrics (Except.error "database failure")).featureTrends = [] := by
  refine ⟨?_, ?_, rfl⟩ <;> simp [getBehaviorMetrics, defaultMetrics, keysOf]

/-- C2 (amended): any failing stage makes the assembler return the one fixed
fallback object; there the scalar fields are 0, the trend arrays are
zero-filled, and the three `sessionDepth` distributions carry every one of
their keys with value 0 — but `userEngagement`, `sessionFrequency` and
`featureTrends` are empty objects (no keys at all) and `featureUsage` holds
empty arrays, while a successful input is assembled normally. -/
theorem C2_catch_returns_fixed_default (e : String) :
    getBehaviorMetrics (Except.error e) = defaultMetrics ∧
    keysOf defaultMetrics.sessionDepth.durationDistribution = durationLabels ∧
    (∀ k, getVal k defaultMetrics.sessionDepth.durationDistribution = 0) ∧
    keysOf defaultMetrics.sessionDepth.timeOfDayDistribution = todLabels ∧
    (∀ k, getVal k defaultMetrics.sessionDepth.timeOfDayDistribution = 0) ∧
    keysOf defaultMetrics.sessionDepth.sessionIntensity = intensityLabels ∧
    (∀ k, getVal k defaultMetrics.sessionDepth.sessionIntensity = 0) ∧
    defaultMetrics.sessionDepth.avgSessionsPerDay = 0 ∧
    defaultMetrics.sessionDepth.maxConsecutiveDays = 0 ∧
    defaultMetrics.dau = 0 ∧ defaultMetrics.wau = 0 ∧ defaultMetrics.mau = 0 ∧
    defaultMetrics.avgSessionMin = 0 ∧
    defaultMetrics.sessionStats = { avg := 0, min := 0, max := 0, total := 0 } ∧
    defaultMetrics.active30 = List.replicate 30 0 ∧
    defaultMetrics.sessions30 = List.replicate 30 0 ∧
    defaultMetrics.avgDuration30 = List.replicate 30 0 ∧
    defaultMetrics.userEngagement = [] ∧
    defaultMetrics.sessionFrequency = [] ∧
    defaultMetrics.featureTrends = [] ∧
    defaultMetrics.featureUsage = { labels := [], values := [] } ∧
    (∀ x : AssemblerInput, getBehaviorMetrics (Except.ok x) = assembleOk x) := by
  refine ⟨rfl, rfl, ?_, rfl, ?_, rfl, ?_, rfl, rfl, rfl, rfl, rfl, rfl, rfl, rfl,
    rfl, rfl, rfl, rfl, rfl, rfl, fun _ => rfl⟩
  · intro k
    simp only [defaultMetrics, durationInit, getVal]
    split_ifs <;> rfl
  · intro k
    simp only [defaultMetrics, todInit, getVal]
    split_ifs <;> rfl
  · intro k
    simp only [defaultMetrics, intensityInit, getVal]
    split_ifs <;> rfl

end StudyFlow
